import Mathlib

/-!
Verification development for the CamUsageWin camera-usage viewer
(src/CamUsageWin.cpp). The data-acquisition and view-building layer is
shallowly embedded: registry access is modelled by an explicit store value,
wide strings by lists of characters, and the two OS time conversions by an
explicit environment of partial functions. std::sort carries no stability
guarantee, so the sorting step is embedded relationally: any output that is
a permutation of the input and is ordered by the comparator is an admissible
result of the call.
-/

namespace CamUsage

/-- Wide string: std::wstring modelled as a list of characters. -/
abbrev Wstring := List Char

/-- SYSTEMTIME with the six fields the program formats (WORD values as Nat). -/
structure SYSTEMTIME where
  wYear : Nat
  wMonth : Nat
  wDay : Nat
  wHour : Nat
  wMinute : Nat
  wSecond : Nat
deriving DecidableEq, Repr

/-- struct CamRow from CamUsageWin.cpp: one display row. -/
structure CamRow where
  kind : Wstring
  app : Wstring
  exe : Wstring
  activeNow : Bool
  startFt : Nat
  stopFt : Nat
deriving DecidableEq, Repr

/-- A child key under the NonPackaged key (one Desktop record).
`openOk` models whether RegOpenKeyExW succeeds on it; `start`/`stop` are the
stored LastUsedTimeStart / LastUsedTimeStop QWORD values, `none` when
RegGetValueW fails (value absent or of wrong type). -/
structure NPEntry where
  name : Wstring
  openOk : Bool
  start : Option Nat
  stop : Option Nat
deriving DecidableEq, Repr

/-- An immediate child key of the webcam root (a Packaged record unless its
name matches "NonPackaged" case-insensitively). -/
structure RootChild where
  name : Wstring
  openOk : Bool
  start : Option Nat
  stop : Option Nat
deriving DecidableEq, Repr

/-- The registry subtree rooted at ...\ConsentStore\webcam. `rootOk` models
whether RegOpenKeyExW succeeds on the root. A `none` element in either
enumeration models RegEnumKeyExW returning an error other than
ERROR_NO_MORE_ITEMS at that index (the code skips it with `continue`).
The single NonPackaged key of the registry is held at store level:
`npOpenOk` is whether opening it succeeds, `npEntries` its children. -/
structure Store where
  rootOk : Bool
  children : List (Option RootChild)
  npOpenOk : Bool
  npEntries : List (Option NPEntry)
deriving DecidableEq, Repr

/-- Environment for the two OS time conversions used by FtToLocalString:
FileTimeToSystemTime and SystemTimeToTzSpecificLocalTime, each of which can
fail. -/
structure TimeEnv where
  fileTimeToSystemTime : Nat → Option SYSTEMTIME
  sysTimeToLocal : SYSTEMTIME → Option SYSTEMTIME

/-- ReplaceAll from CamUsageWin.cpp: std::replace of every occurrence of one
character by another. -/
def ReplaceAll (s : Wstring) (cOld cNew : Char) : Wstring :=
  s.map fun c => if c = cOld then cNew else c

/-- The two path separator characters searched by LeafName (find_last_of of
the two-character set backslash, slash). -/
def isSep (c : Char) : Bool := c = '\\' || c = '/'

/-- LeafName from CamUsageWin.cpp: the substring after the last path
separator (the whole path when there is none). -/
def LeafName (path : Wstring) : Wstring :=
  ((path.reverse.takeWhile fun c => !isSep c)).reverse

/-- Effect of RegGetQword on its out-parameter: the stored value on success,
the previous contents (the callers pre-initialise it to 0) on failure. -/
def RegGetQwordVal (stored : Option Nat) (prev : Nat) : Nat :=
  match stored with
  | some v => v
  | none => prev

/-- The literal L"Packaged" kind tag. -/
def kindPackaged : Wstring := ['P', 'a', 'c', 'k', 'a', 'g', 'e', 'd']

/-- The literal L"Desktop" kind tag. -/
def kindDesktop : Wstring := ['D', 'e', 's', 'k', 't', 'o', 'p']

/-- The literal L"NonPackaged" reserved child name. -/
def kNonPackaged : Wstring :=
  ['N', 'o', 'n', 'P', 'a', 'c', 'k', 'a', 'g', 'e', 'd']

/-- Equality test of _wcsicmp(a, b) == 0: case-insensitive comparison. -/
def wcsicmpEq (a b : Wstring) : Bool :=
  a.map Char.toLower == b.map Char.toLower

/-- The row built for one Desktop (NonPackaged) child, lines 130-139 of
CamUsageWin.cpp. -/
def desktopRow (e : NPEntry) : CamRow :=
  let start := RegGetQwordVal e.start 0
  let stop := RegGetQwordVal e.stop 0
  let exe := ReplaceAll e.name '#' '\\'
  { kind := kindDesktop
    app := LeafName exe
    exe := exe
    activeNow := decide (start ≠ 0) && decide (stop = 0)
    startFt := start
    stopFt := stop }

/-- The row built for one Packaged child, lines 149-161 of CamUsageWin.cpp. -/
def packagedRow (c : RootChild) : CamRow :=
  let start := RegGetQwordVal c.start 0
  let stop := RegGetQwordVal c.stop 0
  { kind := kindPackaged
    app := c.name
    exe := []
    activeNow := decide (start ≠ 0) && decide (stop = 0)
    startFt := start
    stopFt := stop }

/-- Enumeration of the NonPackaged key's children: an enumeration error
skips the entry, a failed RegOpenKeyExW on the child skips it, otherwise one
Desktop row is emitted. -/
def desktopRows : List (Option NPEntry) → List CamRow
  | [] => []
  | none :: rest => desktopRows rest
  | some e :: rest =>
      if e.openOk then desktopRow e :: desktopRows rest else desktopRows rest

/-- Rows contributed by one successfully enumerated root child: the
NonPackaged branch (open the NonPackaged key, enumerate Desktop records) or
the Packaged branch (open the child, emit one Packaged row). -/
def rootChildRows (store : Store) (c : RootChild) : List CamRow :=
  if wcsicmpEq c.name kNonPackaged then
    (if store.npOpenOk then desktopRows store.npEntries else [])
  else
    (if c.openOk then [packagedRow c] else [])

/-- Enumeration of the root's children (lines 104-164): an enumeration error
skips the index and continues. -/
def rootRows (store : Store) : List (Option RootChild) → List CamRow
  | [] => []
  | none :: rest => rootRows store rest
  | some c :: rest => rootChildRows store c ++ rootRows store rest

/-- The unsorted row collection LoadConsentStore builds: empty when the root
cannot be opened, otherwise the enumeration of its children. -/
def loadRows (store : Store) : List CamRow :=
  if store.rootOk then rootRows store store.children else []

/-- The comparator lambda passed to std::sort (lines 168-171). -/
def rowLess (a b : CamRow) : Bool :=
  if a.activeNow ≠ b.activeNow then decide (b.activeNow < a.activeNow)
  else decide (b.startFt < a.startFt)

/-- Contract of std::sort with comparator `rowLess`: the output is a
permutation of the input in which no later element strictly precedes an
earlier one. std::sort promises nothing further (in particular no
stability), so the result is a relation, not a function. -/
def SortResult (input output : List CamRow) : Prop :=
  output.Perm input ∧ output.Pairwise fun a b => rowLess b a = false

/-- LoadConsentStore(out) as a relation between the previous contents of
`out`, the store, and the final contents: out.clear() discards the previous
rows unconditionally, then the collection loaded from the store is sorted
with std::sort. -/
def LoadConsentStore (_prev : List CamRow) (store : Store)
    (out : List CamRow) : Prop :=
  SortResult (loadRows store) out

/-- The rows inserted by ListView_Populate (lines 200-225): a row is skipped
exactly when currentOnly is set and the row is not active. -/
def populateRows (src : List CamRow) (currentOnly : Bool) : List CamRow :=
  src.filter fun r => !(currentOnly && !r.activeNow)

/-- Zero-left-padding of swprintf's %0Nu conversion (no truncation when the
value needs more digits). -/
def padZeros (w : Nat) (s : Wstring) : Wstring :=
  List.replicate (w - s.length) '0' ++ s

/-- One %0Nu conversion: the decimal digits of `n`, zero-padded to width. -/
def formatUInt (w n : Nat) : Wstring :=
  padZeros w (Nat.toDigits 10 n)

/-- The swprintf format L"%04u-%02u-%02u %02u:%02u:%02u" applied to a
SYSTEMTIME (lines 77-79). -/
def formatSystemTime (st : SYSTEMTIME) : Wstring :=
  formatUInt 4 st.wYear ++ '-' :: formatUInt 2 st.wMonth ++
    '-' :: formatUInt 2 st.wDay ++ ' ' :: formatUInt 2 st.wHour ++
    ':' :: formatUInt 2 st.wMinute ++ ':' :: formatUInt 2 st.wSecond

/-- FtToLocalString from CamUsageWin.cpp: empty for a zero timestamp, empty
when either OS conversion fails, otherwise the formatted local time. -/
def FtToLocalString (env : TimeEnv) (ft : Nat) : Wstring :=
  if ft = 0 then []
  else
    match env.fileTimeToSystemTime ft with
    | none => []
    | some stUtc =>
        match env.sysTimeToLocal stUtc with
        | none => []
        | some stLocal => formatSystemTime stLocal

/-- Spec-side notion for claims C7 and C10: `leaf` is the final path
component of `path` — a suffix that contains no separator and is either the
whole path or is preceded in it by a separator. -/
def FinalComponent (path leaf : Wstring) : Prop :=
  leaf.IsSuffix path ∧ (∀ c ∈ leaf, isSep c = false) ∧
    (leaf = path ∨ ∃ pre c, isSep c = true ∧ path = pre ++ c :: leaf)

/-- Spec-side statement of claim C2 as written: every admissible result of
the sorting call keeps any two rows that compare equal (same activeNow, same
startFt) in their relative input order. -/
def StableSortClaim : Prop :=
  ∀ input output, SortResult input output →
    ∀ i j : Fin input.length, i < j →
      (input.get i).activeNow = (input.get j).activeNow →
      (input.get i).startFt = (input.get j).startFt →
      ∃ iOut jOut : Fin output.length, iOut < jOut ∧
        output.get iOut = input.get i ∧ output.get jOut = input.get j

/-! Sample data used by witnesses. -/

/-- Sample Desktop (NonPackaged) child: identity C:#app.exe, used 50-80. -/
def eCam : NPEntry :=
  { name := ['C', ':', '#', 'a', 'p', 'p', '.', 'e', 'x', 'e']
    openOk := true, start := some 50, stop := some 80 }

/-- Sample Packaged child App1, start 100, stop value missing. -/
def cApp : RootChild :=
  { name := ['A', 'p', 'p', '1'], openOk := true
    start := some 100, stop := none }

/-- Sample root child carrying the reserved NonPackaged name. -/
def cNP : RootChild :=
  { name := kNonPackaged, openOk := true, start := none, stop := none }

/-- Sample store holding one Packaged and one Desktop record. -/
def sampleStore : Store :=
  { rootOk := true, children := [some cApp, some cNP]
    npOpenOk := true, npEntries := [some eCam] }

/-- Sample store whose root key fails to open. -/
def deadStore : Store :=
  { rootOk := false, children := [some cApp]
    npOpenOk := true, npEntries := [some eCam] }

/-- Sample store whose NonPackaged key itself fails to open. -/
def npDeadStore : Store :=
  { rootOk := true, children := [some cNP, some cApp]
    npOpenOk := false, npEntries := [some eCam] }

/-- Sample NonPackaged child with neither timestamp value readable. -/
def eNoTimes : NPEntry :=
  { name := ['n'], openOk := true, start := none, stop := none }

/-- Sample NonPackaged child whose stored identity contains a backslash. -/
def npBad : NPEntry :=
  { name := ['a', '\\', 'b'], openOk := true, start := none, stop := none }

/-- Time environment in which FileTimeToSystemTime always fails. -/
def nullTimeEnv : TimeEnv :=
  { fileTimeToSystemTime := fun _ => none
    sysTimeToLocal := fun st => some st }

/-- Two rows that compare equal under the comparator but differ in app. -/
def rowA : CamRow :=
  { kind := kindPackaged, app := ['A'], exe := []
    activeNow := false, startFt := 5, stopFt := 9 }

/-- Second row of the equal-key pair. -/
def rowB : CamRow :=
  { kind := kindPackaged, app := ['B'], exe := []
    activeNow := false, startFt := 5, stopFt := 9 }

/-! Helper lemmas. -/

/-- The first element surviving dropWhile fails the predicate. -/
theorem dropWhile_head_not {α : Type} (p : α → Bool) :
    ∀ (l : List α) (c : α) (cs : List α),
      l.dropWhile p = c :: cs → p c = false := by
  intro l
  induction l with
  | nil => intro c cs h; simp [List.dropWhile] at h
  | cons a rest ih =>
      intro c cs h
      rw [List.dropWhile_cons] at h
      by_cases hp : p a
      · rw [if_pos hp] at h
        exact ih c cs h
      · rw [if_neg hp] at h
        cases h
        exact Bool.of_not_eq_true hp

/-- LeafName really is the final path component of its argument. -/
theorem leafName_finalComponent (path : Wstring) :
    FinalComponent path (LeafName path) := by
  refine ⟨?_, ?_, ?_⟩
  · have h := List.takeWhile_prefix (l := path.reverse) (fun c => !isSep c)
    have h2 := List.reverse_suffix.mpr h
    rwa [List.reverse_reverse] at h2
  · intro c hc
    rw [LeafName, List.mem_reverse] at hc
    have := List.mem_takeWhile_imp hc
    simpa using this
  · cases hd : path.reverse.dropWhile (fun c => !isSep c) with
    | nil =>
        left
        have htw : path.reverse.takeWhile (fun c => !isSep c) = path.reverse := by
          conv_rhs => rw [← List.takeWhile_append_dropWhile
            (p := fun c => !isSep c) (l := path.reverse)]
          rw [hd, List.append_nil]
        rw [LeafName, htw, List.reverse_reverse]
    | cons c cs =>
        right
        refine ⟨cs.reverse, c, ?_, ?_⟩
        · have := dropWhile_head_not (fun c => !isSep c) path.reverse c cs hd
          simpa using this
        · have hsplit : path.reverse.takeWhile (fun c => !isSep c) ++ (c :: cs)
              = path.reverse := by
            conv_rhs => rw [← List.takeWhile_append_dropWhile
              (p := fun c => !isSep c) (l := path.reverse)]
            rw [hd]
          calc path = path.reverse.reverse := (List.reverse_reverse path).symm
            _ = (path.reverse.takeWhile (fun c => !isSep c) ++ (c :: cs)).reverse := by
                rw [hsplit]
            _ = (c :: cs).reverse ++ LeafName path := by
                rw [List.reverse_append, LeafName]
            _ = cs.reverse ++ c :: LeafName path := by
                rw [List.reverse_cons, List.append_assoc, List.singleton_append]

/-- Decoding replaces every marker, so none survives in the result. -/
theorem replaceAll_marker_not_mem (s : Wstring) :
    '#' ∉ ReplaceAll s '#' '\\' := by
  intro h
  rw [ReplaceAll, List.mem_map] at h
  rcases h with ⟨a, _, ha⟩
  by_cases h1 : a = '#'
  · rw [if_pos h1] at ha
    exact absurd ha (by decide)
  · rw [if_neg h1] at ha
    exact h1 ha

/-- Decode-then-encode is the identity on identities free of backslashes. -/
theorem replaceAll_roundtrip :
    ∀ s : Wstring, '\\' ∉ s →
      ReplaceAll (ReplaceAll s '#' '\\') '\\' '#' = s := by
  intro s
  induction s with
  | nil => intro _; rfl
  | cons c cs ih =>
      intro h
      have hc : ¬ c = '\\' := fun hh => h (by rw [hh]; exact List.mem_cons_self _ _)
      have hcs : '\\' ∉ cs := fun hm => h (List.mem_cons_of_mem c hm)
      by_cases h1 : c = '#'
      · subst h1
        simpa [ReplaceAll] using ih hcs
      · have htail := ih hcs
        simp only [ReplaceAll, List.map_cons, if_neg h1, if_neg hc] at htail ⊢
        rw [htail]

/-- Every row of the NonPackaged enumeration is a desktopRow of an entry
that opened successfully. -/
theorem mem_desktopRows :
    ∀ {l : List (Option NPEntry)} {r : CamRow}, r ∈ desktopRows l →
      ∃ e : NPEntry, e.openOk = true ∧ r = desktopRow e := by
  intro l
  induction l with
  | nil => intro r h; simp [desktopRows] at h
  | cons o rest ih =>
      intro r h
      match o with
      | none => exact ih h
      | some e =>
          by_cases he : e.openOk
          · rw [desktopRows, if_pos he] at h
            rcases List.mem_cons.mp h with h1 | h1
            · exact ⟨e, he, h1⟩
            · exact ih h1
          · rw [desktopRows, if_neg he] at h
            exact ih h

/-- Every row of the root enumeration comes from the Packaged branch or the
Desktop branch. -/
theorem mem_rootRows {store : Store} :
    ∀ {l : List (Option RootChild)} {r : CamRow}, r ∈ rootRows store l →
      (∃ c : RootChild, c.openOk = true ∧ r = packagedRow c) ∨
        (∃ e : NPEntry, e.openOk = true ∧ r = desktopRow e) := by
  intro l
  induction l with
  | nil => intro r h; simp [rootRows] at h
  | cons o rest ih =>
      intro r h
      match o with
      | none => exact ih h
      | some c =>
          simp only [rootRows] at h
          rcases List.mem_append.mp h with h1 | h1
          · rw [rootChildRows] at h1
            by_cases hnp : wcsicmpEq c.name kNonPackaged
            · rw [if_pos hnp] at h1
              by_cases ho : store.npOpenOk
              · rw [if_pos ho] at h1
                exact Or.inr (mem_desktopRows h1)
              · rw [if_neg ho] at h1
                simp at h1
            · rw [if_neg hnp] at h1
              by_cases ho : c.openOk
              · rw [if_pos ho] at h1
                rcases List.mem_singleton.mp h1 with h2
                exact Or.inl ⟨c, ho, h2⟩
              · rw [if_neg ho] at h1
                simp at h1
          · exact ih h1

/-- Every loaded row comes from the Packaged branch or the Desktop branch. -/
theorem mem_loadRows {store : Store} {r : CamRow}
    (h : r ∈ loadRows store) :
    (∃ c : RootChild, c.openOk = true ∧ r = packagedRow c) ∨
      (∃ e : NPEntry, e.openOk = true ∧ r = desktopRow e) := by
  rw [loadRows] at h
  by_cases hr : store.rootOk
  · rw [if_pos hr] at h
    exact mem_rootRows h
  · rw [if_neg hr] at h
    simp at h

/-- desktopRows distributes over append. -/
theorem desktopRows_append (l1 l2 : List (Option NPEntry)) :
    desktopRows (l1 ++ l2) = desktopRows l1 ++ desktopRows l2 := by
  induction l1 with
  | nil => rfl
  | cons o rest ih =>
      match o with
      | none => simpa [desktopRows] using ih
      | some e =>
          by_cases he : e.openOk
          · simp [desktopRows, if_pos he, ih]
          · simp [desktopRows, if_neg he, ih]

/-- rootRows distributes over append. -/
theorem rootRows_append (store : Store) (l1 l2 : List (Option RootChild)) :
    rootRows store (l1 ++ l2) = rootRows store l1 ++ rootRows store l2 := by
  induction l1 with
  | nil => rfl
  | cons o rest ih =>
      match o with
      | none => simpa [rootRows] using ih
      | some c => simp [rootRows, ih]

/-- What the comparator returning false on the swapped pair says about the
pair: the later row is not more active, and on equal activity its start is
not larger. -/
theorem rowLess_false_implies (a b : CamRow) (h : rowLess b a = false) :
    (b.activeNow = true → a.activeNow = true) ∧
      (a.activeNow = b.activeNow → b.startFt ≤ a.startFt) := by
  cases ha : a.activeNow <;> cases hb : b.activeNow <;>
    simp [rowLess, ha, hb] at h ⊢ <;> omega

/-! Claim theorems. -/

/-- Claim C1: for every raw record, of either kind, the derived row's
activeNow flag is true exactly when the record's lastStart is non-zero and
its lastStop is zero; consequently every row the loader produces satisfies
the same equivalence on its carried startFt/stopFt fields. -/
theorem claim_C1_activeNow :
    (∀ c : RootChild, (packagedRow c).activeNow = true ↔
      ((packagedRow c).startFt ≠ 0 ∧ (packagedRow c).stopFt = 0)) ∧
    (∀ e : NPEntry, (desktopRow e).activeNow = true ↔
      ((desktopRow e).startFt ≠ 0 ∧ (desktopRow e).stopFt = 0)) ∧
    (∀ (store : Store) (r : CamRow), r ∈ loadRows store →
      (r.activeNow = true ↔ (r.startFt ≠ 0 ∧ r.stopFt = 0))) := by
  have hp : ∀ c : RootChild, (packagedRow c).activeNow = true ↔
      ((packagedRow c).startFt ≠ 0 ∧ (packagedRow c).stopFt = 0) := by
    intro c
    simp [packagedRow]
  have hd : ∀ e : NPEntry, (desktopRow e).activeNow = true ↔
      ((desktopRow e).startFt ≠ 0 ∧ (desktopRow e).stopFt = 0) := by
    intro e
    simp [desktopRow]
  refine ⟨hp, hd, ?_⟩
  intro store r hmem
  rcases mem_loadRows hmem with ⟨c, _, h⟩ | ⟨e, _, h⟩
  · rw [h]; exact hp c
  · rw [h]; exact hd e

/-- Witness for C1 at a concrete loaded row. -/
theorem claim_C1_activeNow_witness :
    (packagedRow cApp).activeNow = true ↔
      ((packagedRow cApp).startFt ≠ 0 ∧ (packagedRow cApp).stopFt = 0) :=
  claim_C1_activeNow.2.2 sampleStore (packagedRow cApp) (by decide)

/-- Claim C3 counterexample: a Desktop raw record whose stored identity
contains a backslash is not round-tripped by decode (marker to separator)
followed by encode (separator to marker): the backslash comes back as a
marker. -/
theorem claim_C3_counterexample :
    npBad.name = ['a', '\\', 'b'] ∧
      ReplaceAll (ReplaceAll npBad.name '#' '\\') '\\' '#' ≠ npBad.name :=
  ⟨rfl, by decide⟩

/-- Claim C3 amended: for every Desktop raw record whose stored identity
contains no path separator (which holds for registry key names, the only
identities the store can hold), decoding then re-encoding the identity is an
exact round trip. -/
theorem claim_C3_amended (e : NPEntry) (h : '\\' ∉ e.name) :
    ReplaceAll (ReplaceAll e.name '#' '\\') '\\' '#' = e.name :=
  replaceAll_roundtrip e.name h

/-- Witness for the amended C3 on the sample Desktop identity. -/
theorem claim_C3_amended_witness :
    ReplaceAll (ReplaceAll eCam.name '#' '\\') '\\' '#' = eCam.name :=
  claim_C3_amended eCam (by decide)

/-- Claim C5: with currentOnly unset the populate step keeps every row; with
currentOnly set it keeps exactly the rows whose activeNow is true, and the
result is an order-preserving subsequence of the unfiltered output. -/
theorem claim_C5_filter (src : List CamRow) :
    populateRows src false = src ∧
    populateRows src true = src.filter (fun r => r.activeNow) ∧
    List.Sublist (populateRows src true) (populateRows src false) := by
  have h1 : populateRows src false = src := by
    simp [populateRows]
  have h2 : populateRows src true = src.filter (fun r => r.activeNow) := by
    simp [populateRows]
  refine ⟨h1, h2, ?_⟩
  rw [h1, h2]
  exact List.filter_sublist src

/-- Claim C6: when the root store fails to open, the loaded collection is
empty whatever rows were previously held, and populating from an empty
collection yields an empty sequence. -/
theorem claim_C6_rootFailEmpty (prev : List CamRow) (store : Store)
    (out : List CamRow) (flag : Bool) (hroot : store.rootOk = false)
    (h : LoadConsentStore prev store out) :
    out = [] ∧ populateRows [] flag = [] := by
  constructor
  · have hload : loadRows store = [] := by
      rw [loadRows, hroot]
      simp
    have hperm := h.1
    rw [hload] at hperm
    exact hperm.eq_nil
  · simp [populateRows]

/-- Witness for C6 on a store whose root fails to open. -/
theorem claim_C6_rootFailEmpty_witness :
    ([] : List CamRow) = [] ∧ populateRows [] true = [] :=
  claim_C6_rootFailEmpty [packagedRow cApp] deadStore [] true (by decide)
    ⟨by decide, by decide⟩

/-- Claim C2 counterexample: on a two-row input whose rows agree on
activeNow and startFt but differ in app, the swapped output is an admissible
result of the std::sort call (a sorted permutation), so the sorting step is
not stable as claimed: an admissible execution reverses the relative order
of comparator-equal rows. -/
theorem claim_C2_counterexample :
    rowA.activeNow = rowB.activeNow ∧ rowA.startFt = rowB.startFt ∧
      SortResult [rowA, rowB] [rowB, rowA] ∧ ¬ StableSortClaim := by
  refine ⟨by decide, by decide, ⟨by decide, by decide⟩, ?_⟩
  intro h
  have h2 := h [rowA, rowB] [rowB, rowA] ⟨by decide, by decide⟩
    ⟨0, by decide⟩ ⟨1, by decide⟩ (by decide) (by decide) (by decide)
  rcases h2 with ⟨i, j, hij, hi, hj⟩
  fin_cases i <;> fin_cases j <;> revert hij hi hj <;> decide

/-- Claim C2 amended: rows with equal activeNow and equal startFt are
equivalent under the comparator (neither precedes the other), so std::sort
is permitted to emit them in either relative order — both orders of the
equal-key sample pair are admissible results; stability is not guaranteed. -/
theorem claim_C2_amended :
    (∀ a b : CamRow, a.activeNow = b.activeNow → a.startFt = b.startFt →
      rowLess a b = false ∧ rowLess b a = false) ∧
    SortResult [rowA, rowB] [rowA, rowB] ∧
    SortResult [rowA, rowB] [rowB, rowA] := by
  refine ⟨?_, ⟨by decide, by decide⟩, ⟨by decide, by decide⟩⟩
  intro a b h1 h2
  constructor <;> simp [rowLess, h1, h2]

/-- Witness for the amended C2 on the equal-key sample pair. -/
theorem claim_C2_amended_witness :
    rowLess rowA rowB = false ∧ rowLess rowB rowA = false :=
  claim_C2_amended.1 rowA rowB rfl rfl

/-- Claim C4: every admissible result of the sorting step is ordered by the
two-key comparator: an active row never appears after an inactive one, and
within rows of equal activeNow the start timestamps are non-increasing. -/
theorem claim_C4_sorted (prev : List CamRow) (store : Store)
    (out : List CamRow) (h : LoadConsentStore prev store out) :
    (∀ i j : Fin out.length, i < j →
      (out.get j).activeNow = true → (out.get i).activeNow = true) ∧
    (∀ i j : Fin out.length, i < j →
      (out.get i).activeNow = (out.get j).activeNow →
      (out.get j).startFt ≤ (out.get i).startFt) := by
  have hp := h.2
  rw [List.pairwise_iff_get] at hp
  constructor
  · intro i j hij ha
    exact (rowLess_false_implies _ _ (hp i j hij)).1 ha
  · intro i j hij he
    exact (rowLess_false_implies _ _ (hp i j hij)).2 he

/-- Witness for C4 on the sample store and a concrete admissible output. -/
theorem claim_C4_sorted_witness :
    (∀ i j : Fin ([packagedRow cApp, desktopRow eCam] : List CamRow).length,
      i < j →
      (([packagedRow cApp, desktopRow eCam] : List CamRow).get j).activeNow = true →
      (([packagedRow cApp, desktopRow eCam] : List CamRow).get i).activeNow = true) ∧
    (∀ i j : Fin ([packagedRow cApp, desktopRow eCam] : List CamRow).length,
      i < j →
      (([packagedRow cApp, desktopRow eCam] : List CamRow).get i).activeNow =
        (([packagedRow cApp, desktopRow eCam] : List CamRow).get j).activeNow →
      (([packagedRow cApp, desktopRow eCam] : List CamRow).get j).startFt ≤
        (([packagedRow cApp, desktopRow eCam] : List CamRow).get i).startFt) :=
  claim_C4_sorted [] sampleStore [packagedRow cApp, desktopRow eCam]
    ⟨by decide, by decide⟩

/-- Claim C7: a Packaged record maps to a row whose app is the child key
name and whose exe is empty; a Desktop record maps to a row whose exe is the
decoded path and whose app is the final path component of that decoded path;
and every loaded row arises from one of these two mappings. -/
theorem claim_C7_rowMapping :
    (∀ c : RootChild, (packagedRow c).app = c.name ∧ (packagedRow c).exe = []) ∧
    (∀ e : NPEntry, (desktopRow e).exe = ReplaceAll e.name '#' '\\' ∧
      FinalComponent (desktopRow e).exe (desktopRow e).app) ∧
    (∀ (store : Store) (r : CamRow), r ∈ loadRows store →
      (∃ c : RootChild, r = packagedRow c) ∨ (∃ e : NPEntry, r = desktopRow e)) := by
  refine ⟨fun c => ⟨rfl, rfl⟩, fun e => ⟨rfl, ?_⟩, ?_⟩
  · exact leafName_finalComponent (ReplaceAll e.name '#' '\\')
  · intro store r hmem
    rcases mem_loadRows hmem with ⟨c, _, h⟩ | ⟨e, _, h⟩
    · exact Or.inl ⟨c, h⟩
    · exact Or.inr ⟨e, h⟩

/-- Witness for C7 at a concrete loaded row. -/
theorem claim_C7_rowMapping_witness :
    (∃ c : RootChild, desktopRow eCam = packagedRow c) ∨
      (∃ e : NPEntry, desktopRow eCam = desktopRow e) :=
  claim_C7_rowMapping.2.2 sampleStore (desktopRow eCam) (by decide)

/-- Claim C8: an enumeration error or an unopenable child contributes
nothing and enumeration continues with the remaining children, at both the
root level (including the case where the child is the NonPackaged key itself
and that key fails to open) and the NonPackaged level; a child that opens is
emitted even when a timestamp value is unreadable, the missing field
defaulting to 0. -/
theorem claim_C8_skipAndDefault :
    (∀ (store : Store) (pre post : List (Option RootChild)),
      rootRows store (pre ++ none :: post) =
        rootRows store pre ++ rootRows store post) ∧
    (∀ (store : Store) (pre post : List (Option RootChild)) (c : RootChild),
      c.openOk = false → wcsicmpEq c.name kNonPackaged = false →
      rootRows store (pre ++ some c :: post) =
        rootRows store pre ++ rootRows store post) ∧
    (∀ (store : Store) (pre post : List (Option RootChild)) (c : RootChild),
      wcsicmpEq c.name kNonPackaged = true → store.npOpenOk = false →
      rootRows store (pre ++ some c :: post) =
        rootRows store pre ++ rootRows store post) ∧
    (∀ (pre post : List (Option NPEntry)),
      desktopRows (pre ++ none :: post) = desktopRows pre ++ desktopRows post) ∧
    (∀ (pre post : List (Option NPEntry)) (e : NPEntry), e.openOk = false →
      desktopRows (pre ++ some e :: post) = desktopRows pre ++ desktopRows post) ∧
    (∀ (pre post : List (Option NPEntry)) (e : NPEntry), e.openOk = true →
      desktopRows (pre ++ some e :: post) =
        desktopRows pre ++ desktopRow e :: desktopRows post) ∧
    (∀ e : NPEntry, e.start = none → (desktopRow e).startFt = 0) ∧
    (∀ e : NPEntry, e.stop = none → (desktopRow e).stopFt = 0) ∧
    (∀ c : RootChild, c.start = none → (packagedRow c).startFt = 0) ∧
    (∀ c : RootChild, c.stop = none → (packagedRow c).stopFt = 0) := by
  refine ⟨?_, ?_, ?_, ?_, ?_, ?_, ?_, ?_, ?_, ?_⟩
  · intro store pre post
    rw [rootRows_append]
    simp [rootRows]
  · intro store pre post c hc hnp
    rw [rootRows_append]
    simp [rootRows, rootChildRows, hnp, hc]
  · intro store pre post c hnp hno
    rw [rootRows_append]
    simp [rootRows, rootChildRows, hnp, hno]
  · intro pre post
    rw [desktopRows_append]
    simp [desktopRows]
  · intro pre post e he
    rw [desktopRows_append]
    simp [desktopRows, he]
  · intro pre post e he
    rw [desktopRows_append]
    simp [desktopRows, he]
  · intro e he
    simp [desktopRow, RegGetQwordVal, he]
  · intro e he
    simp [desktopRow, RegGetQwordVal, he]
  · intro c hc
    simp [packagedRow, RegGetQwordVal, hc]
  · intro c hc
    simp [packagedRow, RegGetQwordVal, hc]

/-- Witness for C8: the unopenable NonPackaged key is skipped while the
enumeration continues, and a child with both values unreadable is still
emitted, with both timestamps defaulted to 0. -/
theorem claim_C8_skipAndDefault_witness :
    rootRows npDeadStore ([] ++ some cNP :: [some cApp]) =
        rootRows npDeadStore [] ++ rootRows npDeadStore [some cApp] ∧
      desktopRows ([] ++ some eNoTimes :: []) =
        desktopRows [] ++ desktopRow eNoTimes :: desktopRows [] ∧
      (desktopRow eNoTimes).startFt = 0 ∧ (desktopRow eNoTimes).stopFt = 0 :=
  ⟨claim_C8_skipAndDefault.2.2.1 npDeadStore [] [some cApp] cNP (by decide) rfl,
    claim_C8_skipAndDefault.2.2.2.2.2.1 [] [] eNoTimes rfl,
    claim_C8_skipAndDefault.2.2.2.2.2.2.1 eNoTimes rfl,
    claim_C8_skipAndDefault.2.2.2.2.2.2.2.1 eNoTimes rfl⟩

/-- Claim C9: timestamp display formatting is total and absorbs failures: a
zero timestamp renders empty; a failed UTC conversion renders empty; a
failed local-time conversion renders empty; a successful conversion renders
the formatted local calendar time; and a record with both timestamps zero is
inactive with both formatted fields empty. -/
theorem claim_C9_formatTotal (env : TimeEnv) :
    FtToLocalString env 0 = [] ∧
    (∀ ft, env.fileTimeToSystemTime ft = none → FtToLocalString env ft = []) ∧
    (∀ ft stUtc, env.fileTimeToSystemTime ft = some stUtc →
      env.sysTimeToLocal stUtc = none → FtToLocalString env ft = []) ∧
    (∀ ft stUtc stLocal, ft ≠ 0 → env.fileTimeToSystemTime ft = some stUtc →
      env.sysTimeToLocal stUtc = some stLocal →
      FtToLocalString env ft = formatSystemTime stLocal) ∧
    (∀ e : NPEntry, RegGetQwordVal e.start 0 = 0 → RegGetQwordVal e.stop 0 = 0 →
      (desktopRow e).activeNow = false ∧
      FtToLocalString env (desktopRow e).startFt = [] ∧
      FtToLocalString env (desktopRow e).stopFt = []) ∧
    (∀ c : RootChild, RegGetQwordVal c.start 0 = 0 → RegGetQwordVal c.stop 0 = 0 →
      (packagedRow c).activeNow = false ∧
      FtToLocalString env (packagedRow c).startFt = [] ∧
      FtToLocalString env (packagedRow c).stopFt = []) := by
  have hzero : FtToLocalString env 0 = [] := by rw [FtToLocalString, if_pos rfl]
  have hnone : ∀ ft, env.fileTimeToSystemTime ft = none →
      FtToLocalString env ft = [] := by
    intro ft hft
    rw [FtToLocalString]
    by_cases h0 : ft = 0
    · rw [if_pos h0]
    · rw [if_neg h0, hft]
  refine ⟨hzero, hnone, ?_, ?_, ?_, ?_⟩
  · intro ft stUtc h1 h2
    rw [FtToLocalString]
    by_cases h0 : ft = 0
    · rw [if_pos h0]
    · simp only [if_neg h0, h1, h2]
  · intro ft stUtc stLocal h0 h1 h2
    rw [FtToLocalString]
    simp only [if_neg h0, h1, h2]
  · intro e hs ht
    refine ⟨?_, ?_, ?_⟩
    · simp [desktopRow, hs, ht]
    · show FtToLocalString env (RegGetQwordVal e.start 0) = []
      rw [hs]
      exact hzero
    · show FtToLocalString env (RegGetQwordVal e.stop 0) = []
      rw [ht]
      exact hzero
  · intro c hs ht
    refine ⟨?_, ?_, ?_⟩
    · simp [packagedRow, hs, ht]
    · show FtToLocalString env (RegGetQwordVal c.start 0) = []
      rw [hs]
      exact hzero
    · show FtToLocalString env (RegGetQwordVal c.stop 0) = []
      rw [ht]
      exact hzero

/-- Witness for C9 on a record with both timestamp values missing. -/
theorem claim_C9_formatTotal_witness :
    (desktopRow eNoTimes).activeNow = false ∧
      FtToLocalString nullTimeEnv (desktopRow eNoTimes).startFt = [] ∧
      FtToLocalString nullTimeEnv (desktopRow eNoTimes).stopFt = [] :=
  (claim_C9_formatTotal nullTimeEnv).2.2.2.2.1 eNoTimes rfl rfl

/-- Claim C10: a loaded Desktop row's exe contains no marker character (each
one in the stored identity was replaced), and its app contains no path
separator. -/
theorem claim_C10_decodedClean (store : Store) (r : CamRow)
    (hmem : r ∈ loadRows store) (hkind : r.kind = kindDesktop) :
    '#' ∉ r.exe ∧ ∀ c ∈ r.app, isSep c = false := by
  rcases mem_loadRows hmem with ⟨c, _, h⟩ | ⟨e, _, h⟩
  · rw [h] at hkind
    have hk : (packagedRow c).kind = kindPackaged := rfl
    rw [hk] at hkind
    exact absurd hkind (by decide)
  · subst h
    constructor
    · exact replaceAll_marker_not_mem e.name
    · exact (leafName_finalComponent (ReplaceAll e.name '#' '\\')).2.1

/-- Witness for C10 at the concrete loaded Desktop row. -/
theorem claim_C10_decodedClean_witness :
    '#' ∉ (desktopRow eCam).exe ∧
      ∀ c ∈ (desktopRow eCam).app, isSep c = false :=
  claim_C10_decodedClean sampleStore (desktopRow eCam) (by decide) (by decide)

end CamUsage
